import Mathlib

/-!
Verification of the astrum order-file monitoring core against its
natural-language specification.

The development shallowly embeds the Go source:

* `lib/filehash/tracker.go` — the content fingerprint store
  (`makeKey`, `GetHash`, `SetHash`, `HasChanged`, `WriteFileIfChanged`,
  `ForgetSession`).  Go strings are embedded as `List Char`; the Go map
  `hashes map[string]string` (whose lookup on a missing key yields the
  zero value `""`) is embedded as a total function `GoStr → GoStr` with
  `[]` standing for `""`/absent.  The durable key-value mirror behind the
  map is an external collaborator and only its success/failure is
  modelled where the control flow depends on it.
* `app_monitoring.go` — the submission reconciler (`createSubmitHandler`)
  together with the frontend events it emits.  The remote server is an
  oracle (`ServerEnv`) supplying the responses of the at-most-one
  `GetLatestTurn` call and the at-most-one `SubmitTurn` call the handler
  performs.  SHA-256 (`filehash.ComputeHash`) is an abstract parameter
  `hash : GoBytes → GoStr`; the code only ever compares hashes for
  equality, so no property of SHA-256 beyond producing non-empty strings
  is ever needed, and where it is needed it appears as a hypothesis.
* `lib/monitor` (manager.go / watcher.go) — the watch coordinator
  registry and the per-session watcher's event filter.
* `lib/notification/manager.go` — the reconnect loop backoff schedule.
-/

/-- Go strings are byte/char sequences; embedded as lists of characters. -/
abbrev GoStr : Type := List Char

/-- Raw file contents (`[]byte`), embedded as a list of byte values. -/
abbrev GoBytes : Type := List Nat

/-- KeySeparator from tracker.go: `const KeySeparator = "\x00"` (one char). -/
def KeySeparator : Char := '\x00'

/-- Tracker in-memory state: the Go map `hashes map[string]string`.
A Go map lookup on an absent key yields `""`, so the map is embedded as a
total function from composite keys to hashes with `[]` meaning absent. -/
abbrev TrackerMap : Type := GoStr → GoStr

/-- makeKey from tracker.go: `serverURL + KeySeparator + sessionID +
KeySeparator + filePath`. -/
def makeKey (serverURL sessionID filePath : GoStr) : GoStr :=
  serverURL ++ [KeySeparator] ++ sessionID ++ [KeySeparator] ++ filePath

/-- Tracker.GetHash: returns the stored hash for a file, or `""` (here
`[]`) if not tracked. -/
def GetHash (t : TrackerMap) (serverURL sessionID filePath : GoStr) : GoStr :=
  t (makeKey serverURL sessionID filePath)

/-- Tracker.SetHash, in-memory effect: `t.hashes[key] = hash`.  (The
write-through to the durable store does not change the map; its possible
failure only affects the returned error, which the callers under
verification either ignore or merely log.) -/
def SetHash (t : TrackerMap) (serverURL sessionID filePath h : GoStr) : TrackerMap :=
  fun k => if k = makeKey serverURL sessionID filePath then h else t k

/-- Tracker.HasChanged: true iff the hash of `data` differs from the
stored hash (also true when the file is not tracked, since no stored
hash is the empty string while real hashes are non-empty).  The SHA-256
function is the abstract parameter `hash`. -/
def HasChanged (hash : GoBytes → GoStr) (t : TrackerMap)
    (serverURL sessionID filePath : GoStr) (data : GoBytes) : Bool :=
  GetHash t serverURL sessionID filePath ≠ hash data

/-- Tracker.ForgetSession: deletes every entry whose key starts with
`serverURL + KeySeparator + sessionID + KeySeparator`
(`strings.HasPrefix` on the composite key). -/
def ForgetSession (t : TrackerMap) (serverURL sessionID : GoStr) : TrackerMap :=
  fun k =>
    if (serverURL ++ [KeySeparator] ++ sessionID ++ [KeySeparator]) <+: k then [] else t k

/-- Local filesystem state for WriteFileIfChanged: path → contents. -/
abbrev FileSys : Type := GoStr → Option GoBytes

/-- Result of Tracker.WriteFileIfChanged: the `(written, err)` return
pair plus the updated tracker map and filesystem. -/
structure WriteResult where
  written : Bool
  ioError : Bool
  tracker : TrackerMap
  fs : FileSys

/-- Tracker.WriteFileIfChanged: skip the write when the stored hash
equals the hash of `data`; otherwise `os.WriteFile` (whose success is the
oracle `writeOk`) and update the stored hash.  A hash-persistence failure
after a successful write is only logged, so it does not appear in the
result. -/
def WriteFileIfChanged (hash : GoBytes → GoStr) (t : TrackerMap) (fs : FileSys)
    (writeOk : Bool) (serverURL sessionID filePath : GoStr) (data : GoBytes) : WriteResult :=
  let newHash := hash data
  let storedHash := GetHash t serverURL sessionID filePath
  if storedHash = newHash then
    ⟨false, false, t, fs⟩
  else if writeOk then
    ⟨true, false, SetHash t serverURL sessionID filePath newHash,
      fun p => if p = filePath then some data else fs p⟩
  else
    ⟨false, true, t, fs⟩

/-- Decimal rendering of a Go `int`, as used by `fmt.Sprintf("%d", ·)`. -/
def goIntStr (n : Int) : GoStr := (toString n).toList

/-- The logical file key `fmt.Sprintf("order:%d", year)` used by
createSubmitHandler. -/
def orderKeyOf (year : Int) : GoStr := "order:".toList ++ goIntStr year

/-- Frontend events emitted through `runtime.EventsEmit` by
app_monitoring.go, one constructor per event name. -/
inductive FrontendEvent where
  | orderSubmitted (serverURL sessionID : GoStr) (year : Int)
  | orderError (serverURL sessionID : GoStr) (year : Int) (msg : GoStr)
  | orderConflict (serverURL sessionID : GoStr) (year : Int)
deriving DecidableEq

/-- Errors returned by the submit handler, one constructor per
`fmt.Errorf` site in createSubmitHandler.  The wrapped causes of the two
server-call failures are carried as strings. -/
inductive SubmitError where
  | conflictError (year : Int)
  | notConnected (serverURL : GoStr)
  | getLatestTurnFailed (cause : GoStr)
  | yearMismatch (localYear serverYear : Int)
  | submitTurnFailed (cause : GoStr)
deriving DecidableEq

/-- The `err.Error()` string of each submit-handler error, mirroring the
corresponding `fmt.Errorf` format strings. -/
def SubmitError.message : SubmitError → GoStr
  | .conflictError y =>
      "order conflict: file modified after upload for year ".toList ++ goIntStr y
  | .notConnected s => "not connected to server: ".toList ++ s
  | .getLatestTurnFailed c => "failed to get latest turn from server: ".toList ++ c
  | .yearMismatch y sy =>
      "order year ".toList ++ goIntStr y ++ " does not match server year ".toList ++ goIntStr sy
  | .submitTurnFailed c => "failed to submit turn: ".toList ++ c

/-- Oracle for the submit handler's environment: whether the app holds a
client and auth manager for the server, the response of the single
`GetLatestTurn` call, the response of the single `SubmitTurn` call, and
the app's `shuttingDown` flag read before emitting events. -/
structure ServerEnv where
  connected : Bool
  latestTurn : Except GoStr Int
  submitTurn : Option GoStr
  shuttingDown : Bool

/-- Observable outcome of one run of the submit handler: the returned
error, the tracker map afterwards, the frontend events emitted, and
which server endpoints were actually called. -/
structure SubmitOutcome where
  error : Option SubmitError
  tracker : TrackerMap
  events : List FrontendEvent
  calledGetLatestTurn : Bool
  calledSubmitTurn : Bool

/-- The three-way classification of §4.4 of the spec, read off the same
comparisons createSubmitHandler performs: stored hash absent → NewUpload,
stored hash equal → Skip, otherwise Conflict. -/
inductive Classification where
  | newUpload
  | skip
  | conflict
deriving DecidableEq

/-- Classification of a submission attempt from the tracker state. -/
def classify (hash : GoBytes → GoStr) (t : TrackerMap)
    (serverURL sessionID : GoStr) (year : Int) (data : GoBytes) : Classification :=
  let storedHash := GetHash t serverURL sessionID (orderKeyOf year)
  if storedHash = [] then .newUpload
  else if storedHash = hash data then .skip
  else .conflict

/-- The closure returned by createSubmitHandler (app_monitoring.go):
hash check → skip / conflict / new-upload; on new-upload validate the
year against the server's latest turn and submit; on successful submit
store the hash (a persistence failure there is only logged and the
handler still returns nil). -/
def submitHandler (hash : GoBytes → GoStr) (env : ServerEnv) (t : TrackerMap)
    (srvURL sessionID : GoStr) (year : Int) (data : GoBytes) : SubmitOutcome :=
  let currentHash := hash data
  let orderKey := orderKeyOf year
  let storedHash := GetHash t srvURL sessionID orderKey
  if storedHash ≠ [] then
    if storedHash = currentHash then
      ⟨none, t, [], false, false⟩
    else
      ⟨some (.conflictError year), t,
        if env.shuttingDown then [] else [.orderConflict srvURL sessionID year],
        false, false⟩
  else if ¬ env.connected then
    ⟨some (.notConnected srvURL), t, [], false, false⟩
  else
    match env.latestTurn with
    | .error cause => ⟨some (.getLatestTurnFailed cause), t, [], true, false⟩
    | .ok serverYear =>
      if year ≠ serverYear then
        ⟨some (.yearMismatch year serverYear), t, [], true, false⟩
      else
        match env.submitTurn with
        | some cause => ⟨some (.submitTurnFailed cause), t, [], true, true⟩
        | none =>
          ⟨none, SetHash t srvURL sessionID orderKey currentHash, [], true, true⟩

/-- Events emitted by the app's onOrderSubmitted callback
(app_monitoring.go, startMonitoringSession): nothing while shutting
down, otherwise `order:submitted` on success and `order:error` with
`err.Error()` on failure. -/
def onOrderSubmittedEvents (shuttingDown : Bool) (serverURL sessionID : GoStr)
    (year : Int) (err : Option SubmitError) : List FrontendEvent :=
  if shuttingDown then []
  else
    match err with
    | none => [.orderSubmitted serverURL sessionID year]
    | some e => [.orderError serverURL sessionID year e.message]

/-- The submit wrapper installed by Manager.Watch (lib/monitor), composed
with the app's onOrderSubmitted callback: runs the submit handler, then
always invokes the callback with `(sessionID, year, err == nil, err)`.
The result collects the handler's events followed by the callback's. -/
def submitWrapperRun (hash : GoBytes → GoStr) (env : ServerEnv) (t : TrackerMap)
    (srvURL sessionID : GoStr) (year : Int) (data : GoBytes) : SubmitOutcome :=
  let r := submitHandler hash env t srvURL sessionID year data
  { r with
    events := r.events ++ onOrderSubmittedEvents env.shuttingDown srvURL sessionID year r.error }

/-- Watch coordinator state (lib/monitor manager.go): the registry
`watchers map[string]*SessionWatcher` keyed by session id, embedded as an
association list from session id to a watcher identity.  Watcher
identities are drawn from a counter `nextId` so that a freshly created
watcher is distinguishable from every earlier one. -/
structure MonitorManager where
  watchers : List (GoStr × Nat)
  nextId : Nat

/-- Lookup in the watcher registry (Go map indexing with `, exists`). -/
def lookupWatcher : List (GoStr × Nat) → GoStr → Option Nat
  | [], _ => none
  | kv :: rest, sid => if kv.1 = sid then some kv.2 else lookupWatcher rest sid

/-- Oracle for the two fallible steps of Manager.Watch:
`NewSessionWatcher` (fsnotify watcher construction) and
`SessionWatcher.Start` (directory stat + fsnotify Add). -/
structure WatchEnv where
  newWatcherOk : Bool
  startOk : Bool

/-- Result of Manager.Watch, one constructor per return site. -/
inductive WatchResult where
  | ok
  | createFailed
  | startFailed
deriving DecidableEq

/-- Manager.Watch: no-op returning nil when the session is already in
the registry; otherwise create and start a watcher, registering it only
when both steps succeed. -/
def ManagerWatch (m : MonitorManager) (env : WatchEnv) (sessionID : GoStr) :
    WatchResult × MonitorManager :=
  if (lookupWatcher m.watchers sessionID).isSome then (.ok, m)
  else if ¬ env.newWatcherOk then (.createFailed, m)
  else if ¬ env.startOk then (.startFailed, m)
  else (.ok, ⟨(sessionID, m.nextId) :: m.watchers, m.nextId + 1⟩)

/-- Manager.Unwatch: stops and removes the watcher for `sessionID`, if
present (a Go map `delete`). -/
def ManagerUnwatch (m : MonitorManager) (sessionID : GoStr) : MonitorManager :=
  { m with watchers := m.watchers.filter fun kv => ! decide (kv.1 = sessionID) }

/-- Manager.Stop: stops every watcher and resets the registry to an
empty map. -/
def ManagerStop (m : MonitorManager) : MonitorManager :=
  { m with watchers := [] }

/-- Manager.WatchedSessions: the list of currently watched session ids. -/
def WatchedSessions (m : MonitorManager) : List GoStr :=
  m.watchers.map Prod.fst

/-- One registry operation, for stating invariants over arbitrary
operation sequences. -/
inductive MonitorOp where
  | watch (env : WatchEnv) (sessionID : GoStr)
  | unwatch (sessionID : GoStr)
  | stopAll

/-- Apply one registry operation. -/
def applyMonitorOp (m : MonitorManager) : MonitorOp → MonitorManager
  | .watch env sid => (ManagerWatch m env sid).2
  | .unwatch sid => ManagerUnwatch m sid
  | .stopAll => ManagerStop m

/-- Apply a sequence of registry operations in order. -/
def applyMonitorOps (m : MonitorManager) (ops : List MonitorOp) : MonitorManager :=
  ops.foldl applyMonitorOp m

/-- Registry invariant: at most one watcher per session identity. -/
def OneWatcherPerSession (m : MonitorManager) : Prop :=
  (m.watchers.map Prod.fst).Nodup

/-- Registry invariant: every registered watcher id is below the
counter, so the counter always yields a fresh identity. -/
def IdsBounded (m : MonitorManager) : Prop :=
  ∀ p ∈ m.watchers, p.2 < m.nextId

/-- A single fsnotify event as seen by SessionWatcher.handleEvent: the
full path `Name` and the operation bits the watcher inspects via
`event.Has`. -/
structure FsEvent where
  name : GoStr
  write : Bool
  create : Bool
  remove : Bool
  rename : Bool
  chmod : Bool

/-- Strip trailing path separators, as Go's filepath.Base does first. -/
def dropTrailingSeps (p : GoStr) : GoStr :=
  (p.reverse.dropWhile fun c => decide (c = '/')).reverse

/-- Everything after the last path separator. -/
def afterLastSep (p : GoStr) : GoStr :=
  (p.reverse.takeWhile fun c => decide (c ≠ '/')).reverse

/-- Go filepath.Base (unix separator): "." for the empty path, trailing
separators removed, the part after the last separator, "/" when the path
consists only of separators. -/
def filepathBase (p : GoStr) : GoStr :=
  if p = [] then ['.']
  else
    let q := dropTrailingSeps p
    let r := afterLastSep q
    if r = [] then ['/'] else r

/-- SessionWatcher.expectedOrderFile:
`fmt.Sprintf("game.x%d", PlayerOrder+1)` with the 0-indexed seat
rendered 1-indexed.  Seats come from ranging over the session's player
roster, hence are natural numbers. -/
def expectedOrderFile (playerOrder : Nat) : GoStr :=
  "game.x".toList ++ (toString (playerOrder + 1)).toList

/-- The filter of SessionWatcher.handleEvent: true exactly when the
debounce timer is (re)started, i.e. the event is a write or create whose
base name equals the expected order file.  (The timer body is the
validate/submit path; any event failing the filter returns before
touching the timer.) -/
def handleEventTriggers (playerOrder : Nat) (e : FsEvent) : Bool :=
  if ¬ (e.write || e.create) then false
  else if filepathBase e.name ≠ expectedOrderFile playerOrder then false
  else true

/-- One second in `time.Duration` units (nanoseconds). -/
def nsecPerSec : Nat := 1000000000

/-- initialBackoff from lib/notification/manager.go: `5 * time.Second`. -/
def initialBackoff : Nat := 5 * nsecPerSec

/-- maxBackoff: `60 * time.Second`. -/
def maxBackoff : Nat := 60 * nsecPerSec

/-- backoffFactor: `2`. -/
def backoffFactor : Nat := 2

/-- What the reconnect loop observes during one iteration: the stop
signal at the top of the loop, the `connected` flag and token emptiness
read under the lock, the stop signal during the backoff wait, and the
outcome of the reconnection attempt. -/
structure ReconnectIterIn where
  stopTop : Bool
  connected : Bool
  noToken : Bool
  stopWait : Bool
  reconnectOk : Bool

/-- How one run of the reconnect loop ended, one constructor per
`return` site of Manager.reconnectLoop. -/
inductive ReconnectExit where
  | stopped
  | alreadyConnected
  | noToken
  | success
deriving DecidableEq

/-- Result of one iteration of Manager.reconnectLoop: how the loop
exited (if it did), the backoff delay fully waited out this iteration
(if any), whether `client.Reconnect` was attempted, and the backoff
value carried into the next iteration. -/
structure ReconnectStepOut where
  exit : Option ReconnectExit
  waited : Option Nat
  attempted : Bool
  nextBackoff : Nat
deriving DecidableEq

/-- One iteration of Manager.reconnectLoop with current backoff `b`:
check stop, check connected, check token, wait `b` (or stop), attempt;
on failure double the backoff and cap it at maxBackoff. -/
def reconnectStep (b : Nat) (inp : ReconnectIterIn) : ReconnectStepOut :=
  if inp.stopTop then ⟨some .stopped, none, false, b⟩
  else if inp.connected then ⟨some .alreadyConnected, none, false, b⟩
  else if inp.noToken then ⟨some .noToken, none, false, b⟩
  else if inp.stopWait then ⟨some .stopped, none, false, b⟩
  else if inp.reconnectOk then ⟨some .success, some b, true, b⟩
  else
    let b2 := b * backoffFactor
    ⟨none, some b, true, if b2 > maxBackoff then maxBackoff else b2⟩

/-- Run the reconnect loop for at most `fuel` iterations against the
oracle `env`, collecting the backoff delays fully waited out and the
exit, if reached. -/
def reconnectRun : Nat → Nat → (Nat → ReconnectIterIn) → List Nat × Option ReconnectExit
  | 0, _, _ => ([], none)
  | fuel + 1, b, env =>
    let s := reconnectStep b (env 0)
    match s.exit with
    | some e => (s.waited.toList, some e)
    | none =>
      let rest := reconnectRun fuel s.nextBackoff (fun i => env (i + 1))
      (s.waited.toList ++ rest.1, rest.2)

/-- An environment in which every reconnection attempt fails and no stop
or external reconnect intervenes. -/
def allFailEnv : Nat → ReconnectIterIn :=
  fun _ => ⟨false, false, false, false, false⟩

/-- The backoff delay before the `n`-th (0-based) reconnection attempt
in an uninterrupted run of consecutive failures. -/
def delaySeq : Nat → Nat
  | 0 => initialBackoff
  | n + 1 =>
    let b2 := delaySeq n * backoffFactor
    if b2 > maxBackoff then maxBackoff else b2

/-- C4: after SetHash(connection, session, key, hash(data)), HasChanged
on the same data returns false; HasChanged returns true whenever the
data's hash differs from the stored value, and in particular when no
value is stored (real hashes being non-empty hex strings). -/
theorem C4_fingerprint_idempotence (hash : GoBytes → GoStr) (t : TrackerMap)
    (srv sess key : GoStr) (d d' : GoBytes) :
    HasChanged hash (SetHash t srv sess key (hash d)) srv sess key d = false ∧
    (GetHash t srv sess key ≠ hash d' → HasChanged hash t srv sess key d' = true) ∧
    (GetHash t srv sess key = [] → hash d' ≠ [] → HasChanged hash t srv sess key d' = true) := by
  refine ⟨?_, ?_, ?_⟩
  · simp [HasChanged, SetHash, GetHash]
  · intro h
    simp [HasChanged, GetHash] at *
    exact h
  · intro h hne
    simp [HasChanged, GetHash] at *
    rw [h]
    exact fun c => hne c.symm

/-- Witness for C4 at concrete inputs. -/
theorem C4_fingerprint_idempotence_witness :
    HasChanged (fun d => 'h' :: d.map fun n => Char.ofNat (97 + n % 26))
        (SetHash (fun _ => []) "s1".toList "sessA".toList "order:2400".toList
          ((fun d => 'h' :: d.map fun n => Char.ofNat (97 + n % 26)) [0, 1]))
        "s1".toList "sessA".toList "order:2400".toList [0, 1] = false ∧
    HasChanged (fun d => 'h' :: d.map fun n => Char.ofNat (97 + n % 26))
        (fun _ => []) "s1".toList "sessA".toList "order:2400".toList [2] = true := by
  have h := C4_fingerprint_idempotence
    (fun d => 'h' :: d.map fun n => Char.ofNat (97 + n % 26))
    (fun _ => []) "s1".toList "sessA".toList "order:2400".toList [0, 1] [2]
  exact ⟨h.1, h.2.1 (by decide)⟩

/-- Reading back a hash just set on the same composite key. -/
theorem GetHash_SetHash_same (t : TrackerMap) (srv sess fp h : GoStr) :
    GetHash (SetHash t srv sess fp h) srv sess fp = h := by
  simp [GetHash, SetHash]

/-- WriteFileIfChanged skips when the stored hash matches. -/
theorem writeIfChanged_skip (hash : GoBytes → GoStr) (t : TrackerMap) (fs : FileSys)
    (w : Bool) (srv sess fp : GoStr) (d : GoBytes)
    (h : GetHash t srv sess fp = hash d) :
    WriteFileIfChanged hash t fs w srv sess fp d = ⟨false, false, t, fs⟩ := by
  simp [WriteFileIfChanged, h]

/-- WriteFileIfChanged writes and records the new hash when the stored
hash differs and the disk write succeeds. -/
theorem writeIfChanged_write (hash : GoBytes → GoStr) (t : TrackerMap) (fs : FileSys)
    (srv sess fp : GoStr) (d : GoBytes)
    (h : GetHash t srv sess fp ≠ hash d) :
    WriteFileIfChanged hash t fs true srv sess fp d =
      ⟨true, false, SetHash t srv sess fp (hash d),
        fun p => if p = fp then some d else fs p⟩ := by
  simp [WriteFileIfChanged, h]

/-- C5: WriteFileIfChanged returns (false, nil) and leaves tracker and
disk untouched when the stored fingerprint matches hash(data); otherwise
it writes, updates the fingerprint and returns written=true.  Hence two
consecutive calls with identical data perform exactly one write, a third
call with different data performs a second write, and the file contents
equal the last written data after each write. -/
theorem C5_write_skip (hash : GoBytes → GoStr) (t : TrackerMap) (fs : FileSys)
    (srv sess fp : GoStr) (d1 d2 : GoBytes)
    (h1 : GetHash t srv sess fp ≠ hash d1) (h2 : hash d2 ≠ hash d1) :
    (∀ (t' : TrackerMap) (fs' : FileSys) (d : GoBytes),
        GetHash t' srv sess fp = hash d →
        WriteFileIfChanged hash t' fs' true srv sess fp d = ⟨false, false, t', fs'⟩) ∧
    WriteFileIfChanged hash t fs true srv sess fp d1 =
      ⟨true, false, SetHash t srv sess fp (hash d1),
        fun p => if p = fp then some d1 else fs p⟩ ∧
    (WriteFileIfChanged hash t fs true srv sess fp d1).fs fp = some d1 ∧
    WriteFileIfChanged hash (SetHash t srv sess fp (hash d1))
        (fun p => if p = fp then some d1 else fs p) true srv sess fp d1 =
      ⟨false, false, SetHash t srv sess fp (hash d1),
        fun p => if p = fp then some d1 else fs p⟩ ∧
    WriteFileIfChanged hash (SetHash t srv sess fp (hash d1))
        (fun p => if p = fp then some d1 else fs p) true srv sess fp d2 =
      ⟨true, false, SetHash (SetHash t srv sess fp (hash d1)) srv sess fp (hash d2),
        fun p => if p = fp then some d2 else if p = fp then some d1 else fs p⟩ ∧
    (WriteFileIfChanged hash (SetHash t srv sess fp (hash d1))
        (fun p => if p = fp then some d1 else fs p) true srv sess fp d2).fs fp = some d2 := by
  have w1 := writeIfChanged_write hash t fs srv sess fp d1 h1
  have s2 := writeIfChanged_skip hash (SetHash t srv sess fp (hash d1))
    (fun p => if p = fp then some d1 else fs p) true srv sess fp d1
    (GetHash_SetHash_same t srv sess fp (hash d1))
  have w3 := writeIfChanged_write hash (SetHash t srv sess fp (hash d1))
    (fun p => if p = fp then some d1 else fs p) srv sess fp d2
    (by rw [GetHash_SetHash_same]; exact fun c => h2 c.symm)
  refine ⟨fun t' fs' d hd => writeIfChanged_skip hash t' fs' true srv sess fp d hd,
    w1, ?_, s2, w3, ?_⟩
  · rw [w1]; simp
  · rw [w3]; simp

/-- Witness for C5 at concrete inputs. -/
theorem C5_write_skip_witness :
    (WriteFileIfChanged (fun d => 'h' :: d.map fun n => Char.ofNat (97 + n % 26))
        (fun _ => []) (fun _ => none) true "s1".toList "sessA".toList "game.x1".toList
        [0]).written = true ∧
    (WriteFileIfChanged (fun d => 'h' :: d.map fun n => Char.ofNat (97 + n % 26))
        (fun _ => []) (fun _ => none) true "s1".toList "sessA".toList "game.x1".toList
        [0]).fs "game.x1".toList = some [0] := by
  have h := C5_write_skip (fun d => 'h' :: d.map fun n => Char.ofNat (97 + n % 26))
    (fun _ => []) (fun _ => none) "s1".toList "sessA".toList "game.x1".toList
    [0] [1] (by decide) (by decide)
  exact ⟨congrArg WriteResult.written h.2.1, h.2.2.1⟩

/-- Two separator-free identities followed by the separator can only be
prefix-related inside a composite key when they are equal. -/
theorem sepfree_prefix_eq : ∀ (A B k : GoStr), KeySeparator ∉ A → KeySeparator ∉ B →
    A ++ [KeySeparator] <+: B ++ [KeySeparator] ++ k → A = B := by
  intro A
  induction A with
  | nil =>
    intro B k _ hB h
    cases B with
    | nil => rfl
    | cons b B' =>
      simp only [List.nil_append, List.cons_append, List.cons_prefix_cons] at h
      exact absurd (h.1 ▸ List.mem_cons_self b B') hB
  | cons a A' ih =>
    intro B k hA hB h
    cases B with
    | nil =>
      simp only [List.nil_append, List.cons_append, List.cons_prefix_cons] at h
      exact absurd (h.1 ▸ List.mem_cons_self a A') hA
    | cons b B' =>
      simp only [List.cons_append, List.cons_prefix_cons] at h
      have tails : A' = B' :=
        ih B' k (fun c => hA (List.mem_cons_of_mem a c))
          (fun c => hB (List.mem_cons_of_mem b c)) h.2
      rw [h.1, tails]

/-- Cancelling the shared connection prefix of two composite keys. -/
theorem makeKey_session_inj (srv A B k1 k2 : GoStr)
    (h : makeKey srv A k1 = makeKey srv B k2) :
    A ++ [KeySeparator] ++ k1 = B ++ [KeySeparator] ++ k2 := by
  unfold makeKey at h
  simp only [List.append_assoc] at h ⊢
  exact List.append_cancel_left (List.append_cancel_left h)

/-- C6: with the reserved separator absent from the connection identity,
session identities and logical keys, a fingerprint set under session A
is invisible to session B on the same connection and key, ForgetSession
for A empties every key of session A, and ForgetSession for A leaves
every fingerprint of session B unchanged. -/
theorem C6_session_isolation (t : TrackerMap) (srv A B key h : GoStr)
    (hsrv : KeySeparator ∉ srv) (hA : KeySeparator ∉ A) (hB : KeySeparator ∉ B)
    (hkey : KeySeparator ∉ key) (hne : A ≠ B) :
    GetHash (SetHash t srv A key h) srv B key = GetHash t srv B key ∧
    (∀ k : GoStr, GetHash (ForgetSession t srv A) srv A k = []) ∧
    (∀ k : GoStr, GetHash (ForgetSession t srv A) srv B k = GetHash t srv B k) := by
  refine ⟨?_, ?_, ?_⟩
  · have hkne : makeKey srv B key ≠ makeKey srv A key := by
      intro c
      have h1 := makeKey_session_inj srv B A key key c
      exact hne (List.append_cancel_right (List.append_cancel_right h1)).symm
    simp only [GetHash, SetHash, if_neg hkne]
  · intro k
    have hpre : srv ++ [KeySeparator] ++ A ++ [KeySeparator] <+: makeKey srv A k := by
      unfold makeKey
      exact List.prefix_append _ _
    simp only [GetHash, ForgetSession]
    rw [if_pos hpre]
  · intro k
    have hnpre : ¬ srv ++ [KeySeparator] ++ A ++ [KeySeparator] <+: makeKey srv B k := by
      intro c
      unfold makeKey at c
      simp only [List.append_assoc] at c
      have c1 := (List.prefix_append_right_inj srv).mp c
      have c2 := (List.prefix_append_right_inj [KeySeparator]).mp c1
      rw [← List.append_assoc] at c2
      exact hne (sepfree_prefix_eq A B k hA hB c2)
    simp only [GetHash, ForgetSession]
    rw [if_neg hnpre]

/-- Witness for C6 at concrete inputs. -/
theorem C6_session_isolation_witness :
    GetHash
      (SetHash (fun _ => []) "s1".toList "sessA".toList "order:2400".toList "h1".toList)
      "s1".toList "sessB".toList "order:2400".toList = [] ∧
    GetHash
      (ForgetSession
        (SetHash (fun _ => []) "s1".toList "sessB".toList "order:2400".toList "h1".toList)
        "s1".toList "sessA".toList)
      "s1".toList "sessB".toList "order:2400".toList = "h1".toList := by
  have h := C6_session_isolation (fun _ => []) "s1".toList "sessA".toList "sessB".toList
    "order:2400".toList "h1".toList (by decide) (by decide) (by decide) (by decide)
    (by decide)
  have h2 := C6_session_isolation
    (SetHash (fun _ => []) "s1".toList "sessB".toList "order:2400".toList "h1".toList)
    "s1".toList "sessA".toList "sessB".toList
    "order:2400".toList "h1".toList (by decide) (by decide) (by decide) (by decide)
    (by decide)
  exact ⟨(h.1).trans (by decide), (h2.2.2 "order:2400".toList).trans (by decide)⟩

/-- C1: the submit handler classifies by comparing hash(bytes) with the
stored fingerprint under "order:(year)": Skip (stored = current) returns
success immediately with no server call and no state change; Conflict
(stored present but different) returns the conflict outcome with no
server call; NewUpload is exactly the absent-fingerprint case and
proceeds to the server validation step (querying the latest turn
whenever the connection is available). -/
theorem C1_submit_classification (hash : GoBytes → GoStr) (env : ServerEnv)
    (t : TrackerMap) (srv sess : GoStr) (year : Int) (data : GoBytes) :
    (classify hash t srv sess year data = .skip →
      submitHandler hash env t srv sess year data = ⟨none, t, [], false, false⟩) ∧
    (classify hash t srv sess year data = .conflict →
      submitHandler hash env t srv sess year data =
        ⟨some (.conflictError year), t,
          if env.shuttingDown then [] else [.orderConflict srv sess year],
          false, false⟩) ∧
    (classify hash t srv sess year data = .newUpload ↔
      GetHash t srv sess (orderKeyOf year) = []) ∧
    (classify hash t srv sess year data = .newUpload → env.connected = true →
      (submitHandler hash env t srv sess year data).calledGetLatestTurn = true) := by
  unfold classify submitHandler
  by_cases h0 : GetHash t srv sess (orderKeyOf year) = []
  · simp only [h0, if_pos rfl, ite_not]
    refine ⟨by simp, by simp, by simp, ?_⟩
    intro _ hc
    simp only [hc]
    cases env.latestTurn with
    | error c => simp
    | ok sy =>
      by_cases hy : year = sy
      · simp only [hy]
        cases env.submitTurn <;> simp
      · simp [hy]
  · by_cases h1 : GetHash t srv sess (orderKeyOf year) = hash data
    · have h2 : ¬ hash data = [] := fun c => h0 (h1.trans c)
      simp [h0, h1, h2]
    · simp [h0, h1]

/-- Witness for C1 at concrete inputs (a Skip classification). -/
theorem C1_submit_classification_witness :
    submitHandler (fun d => 'h' :: d.map fun n => Char.ofNat (97 + n % 26))
        ⟨true, .ok 2400, none, false⟩
        (SetHash (fun _ => []) "s1".toList "sessA".toList (orderKeyOf 2400)
          ((fun d => 'h' :: d.map fun n => Char.ofNat (97 + n % 26)) [0, 1]))
        "s1".toList "sessA".toList 2400 [0, 1] =
      ⟨none,
        SetHash (fun _ => []) "s1".toList "sessA".toList (orderKeyOf 2400)
          ((fun d => 'h' :: d.map fun n => Char.ofNat (97 + n % 26)) [0, 1]),
        [], false, false⟩ :=
  (C1_submit_classification (fun d => 'h' :: d.map fun n => Char.ofNat (97 + n % 26))
    ⟨true, .ok 2400, none, false⟩
    (SetHash (fun _ => []) "s1".toList "sessA".toList (orderKeyOf 2400)
      ((fun d => 'h' :: d.map fun n => Char.ofNat (97 + n % 26)) [0, 1]))
    "s1".toList "sessA".toList 2400 [0, 1]).1 (by decide)

/-- C2: on a NewUpload classification (no stored fingerprint) with the
connection available: a year differing from the server's latest year
fails without submitting and without storing; a successful submit stores
hash(bytes) under the fingerprint key; a failed submit propagates the
error and stores nothing, so a retry is classified NewUpload again. -/
theorem C2_new_upload (hash : GoBytes → GoStr) (env : ServerEnv) (t : TrackerMap)
    (srv sess : GoStr) (year : Int) (data : GoBytes)
    (hstored : GetHash t srv sess (orderKeyOf year) = [])
    (hconn : env.connected = true) :
    (∀ sy : Int, env.latestTurn = .ok sy → year ≠ sy →
      submitHandler hash env t srv sess year data =
        ⟨some (.yearMismatch year sy), t, [], true, false⟩) ∧
    (∀ sy : Int, env.latestTurn = .ok sy → year = sy → env.submitTurn = none →
      submitHandler hash env t srv sess year data =
        ⟨none, SetHash t srv sess (orderKeyOf year) (hash data), [], true, true⟩ ∧
      GetHash (submitHandler hash env t srv sess year data).tracker
        srv sess (orderKeyOf year) = hash data) ∧
    (∀ (sy : Int) (cause : GoStr), env.latestTurn = .ok sy → year = sy →
        env.submitTurn = some cause →
      submitHandler hash env t srv sess year data =
        ⟨some (.submitTurnFailed cause), t, [], true, true⟩ ∧
      classify hash (submitHandler hash env t srv sess year data).tracker
        srv sess year data = .newUpload) := by
  refine ⟨?_, ?_, ?_⟩
  · intro sy hlt hy
    simp [submitHandler, hstored, hconn, hlt, hy]
  · intro sy hlt hy hsub
    subst hy
    have he : submitHandler hash env t srv sess year data =
        ⟨none, SetHash t srv sess (orderKeyOf year) (hash data), [], true, true⟩ := by
      simp [submitHandler, hstored, hconn, hlt, hsub]
    exact ⟨he, by rw [he]; exact GetHash_SetHash_same t srv sess (orderKeyOf year) (hash data)⟩
  · intro sy cause hlt hy hsub
    subst hy
    have he : submitHandler hash env t srv sess year data =
        ⟨some (.submitTurnFailed cause), t, [], true, true⟩ := by
      simp [submitHandler, hstored, hconn, hlt, hsub]
    exact ⟨he, by rw [he]; simp [classify, hstored]⟩

/-- Witness for C2 at concrete inputs (a successful new upload). -/
theorem C2_new_upload_witness :
    submitHandler (fun d => 'h' :: d.map fun n => Char.ofNat (97 + n % 26))
        ⟨true, .ok 2400, none, false⟩ (fun _ => [])
        "s1".toList "sessA".toList 2400 [0, 1] =
      ⟨none,
        SetHash (fun _ => []) "s1".toList "sessA".toList (orderKeyOf 2400)
          ((fun d => 'h' :: d.map fun n => Char.ofNat (97 + n % 26)) [0, 1]),
        [], true, true⟩ :=
  ((C2_new_upload (fun d => 'h' :: d.map fun n => Char.ofNat (97 + n % 26))
    ⟨true, .ok 2400, none, false⟩ (fun _ => [])
    "s1".toList "sessA".toList 2400 [0, 1] (by decide) rfl).2.1
    2400 rfl rfl rfl).1

/-- C3: through the coordinator's submit wrapper and the app's
onOrderSubmitted callback, a Conflict classification surfaces as the
tagged `order:conflict` event (while not shutting down), and that tagged
event is emitted only on a Conflict classification — never for network
or validation failures — so the conflict outcome is distinguishable from
generic submission failures in the emitted event representation. -/
theorem C3_conflict_tagged (hash : GoBytes → GoStr) (env : ServerEnv) (t : TrackerMap)
    (srv sess : GoStr) (year : Int) (data : GoBytes) :
    (classify hash t srv sess year data = .conflict → env.shuttingDown = false →
      FrontendEvent.orderConflict srv sess year ∈
        (submitWrapperRun hash env t srv sess year data).events) ∧
    (∀ (s' x' : GoStr) (y' : Int),
      FrontendEvent.orderConflict s' x' y' ∈
        (submitWrapperRun hash env t srv sess year data).events →
      classify hash t srv sess year data = .conflict) := by
  unfold submitWrapperRun submitHandler onOrderSubmittedEvents classify
  by_cases h0 : GetHash t srv sess (orderKeyOf year) = []
  · refine ⟨by simp [h0], ?_⟩
    intro s' x' y' hmem
    exfalso
    simp only [h0, if_pos rfl, ite_not] at hmem
    by_cases hsd : env.shuttingDown
    · by_cases hc : env.connected
      · cases hlt : env.latestTurn with
        | error c => simp [hc, hsd, hlt] at hmem
        | ok sy =>
          by_cases hy : year = sy
          · cases hsub : env.submitTurn <;> simp [hc, hsd, hlt, hy, hsub] at hmem
          · simp [hc, hsd, hlt, hy] at hmem
      · simp [hc, hsd] at hmem
    · by_cases hc : env.connected
      · cases hlt : env.latestTurn with
        | error c => simp [hc, hsd, hlt] at hmem
        | ok sy =>
          by_cases hy : year = sy
          · cases hsub : env.submitTurn <;> simp [hc, hsd, hlt, hy, hsub] at hmem
          · simp [hc, hsd, hlt, hy] at hmem
      · simp [hc, hsd] at hmem
  · by_cases h1 : GetHash t srv sess (orderKeyOf year) = hash data
    · have h2 : ¬ hash data = [] := fun c => h0 (h1.trans c)
      refine ⟨by simp [h0, h1, h2], ?_⟩
      intro s' x' y' hmem
      exfalso
      by_cases hsd : env.shuttingDown <;> simp [h0, h1, h2, hsd] at hmem
    · refine ⟨?_, fun s' x' y' _ => by simp [h0, h1]⟩
      intro _ hsd
      simp [h0, h1, hsd]

/-- Witness for C3 at concrete inputs (a conflicting resubmission). -/
theorem C3_conflict_tagged_witness :
    FrontendEvent.orderConflict "s1".toList "sessA".toList 2400 ∈
      (submitWrapperRun (fun d => 'h' :: d.map fun n => Char.ofNat (97 + n % 26))
        ⟨true, .ok 2400, none, false⟩
        (SetHash (fun _ => []) "s1".toList "sessA".toList (orderKeyOf 2400)
          ((fun d => 'h' :: d.map fun n => Char.ofNat (97 + n % 26)) [0, 1]))
        "s1".toList "sessA".toList 2400 [9, 9]).events :=
  (C3_conflict_tagged (fun d => 'h' :: d.map fun n => Char.ofNat (97 + n % 26))
    ⟨true, .ok 2400, none, false⟩
    (SetHash (fun _ => []) "s1".toList "sessA".toList (orderKeyOf 2400)
      ((fun d => 'h' :: d.map fun n => Char.ofNat (97 + n % 26)) [0, 1]))
    "s1".toList "sessA".toList 2400 [9, 9]).1 (by decide) rfl

/-- Unwatch removes every registry entry for the session id. -/
theorem lookupWatcher_filter_ne (l : List (GoStr × Nat)) (sid : GoStr) :
    lookupWatcher (l.filter fun kv => ! decide (kv.1 = sid)) sid = none := by
  induction l with
  | nil => rfl
  | cons kv rest ih =>
    by_cases h : kv.1 = sid
    · simp [List.filter_cons, h, ih]
    · simp [List.filter_cons, h, lookupWatcher, ih]

/-- A session id that the registry lookup misses is not a watched key. -/
theorem lookupWatcher_none_notMem (l : List (GoStr × Nat)) (sid : GoStr)
    (h : lookupWatcher l sid = none) : sid ∉ l.map Prod.fst := by
  induction l with
  | nil => simp
  | cons kv rest ih =>
    simp only [lookupWatcher] at h
    by_cases hk : kv.1 = sid
    · simp [hk] at h
    · simp only [List.map_cons, List.mem_cons]
      push_neg
      exact ⟨fun c => hk c.symm, ih (by simpa [hk] using h)⟩

/-- One registry operation preserves both registry invariants. -/
theorem monitorOp_preserves_invariants (m : MonitorManager) (op : MonitorOp)
    (hn : OneWatcherPerSession m) (hb : IdsBounded m) :
    OneWatcherPerSession (applyMonitorOp m op) ∧ IdsBounded (applyMonitorOp m op) := by
  cases op with
  | stopAll =>
    refine ⟨?_, ?_⟩
    · simp [applyMonitorOp, ManagerStop, OneWatcherPerSession]
    · intro p hp
      simp [applyMonitorOp, ManagerStop] at hp
  | unwatch sid =>
    refine ⟨?_, ?_⟩
    · exact ((List.filter_sublist _).map Prod.fst).nodup hn
    · intro p hp
      exact hb p (List.mem_of_mem_filter hp)
  | watch env sid =>
    simp only [applyMonitorOp, ManagerWatch]
    cases hl : lookupWatcher m.watchers sid with
    | some w => simpa using ⟨hn, hb⟩
    | none =>
      by_cases h1 : env.newWatcherOk
      · by_cases h2 : env.startOk
        · simp only [hl, Option.isSome_none, Bool.false_eq_true, if_false, h1, h2,
            not_true, if_false, if_true]
          refine ⟨?_, ?_⟩
          · exact List.Nodup.cons (lookupWatcher_none_notMem m.watchers sid hl) hn
          · intro p hp
            rcases List.mem_cons.mp hp with hc | hc
            · rw [hc]; exact Nat.lt_succ_self _
            · exact Nat.lt_succ_of_lt (hb p hc)
        · simpa [hl, h1, h2] using ⟨hn, hb⟩
      · simpa [hl, h1] using ⟨hn, hb⟩

/-- The registry invariants hold along any operation sequence. -/
theorem monitorOps_invariants (ops : List MonitorOp) : ∀ m : MonitorManager,
    OneWatcherPerSession m → IdsBounded m →
    OneWatcherPerSession (applyMonitorOps m ops) ∧ IdsBounded (applyMonitorOps m ops) := by
  induction ops with
  | nil => exact fun m hn hb => ⟨hn, hb⟩
  | cons op rest ih =>
    intro m hn hb
    have h1 := monitorOp_preserves_invariants m op hn hb
    exact ih (applyMonitorOp m op) h1.1 h1.2

/-- C7: across every sequence of Watch/Unwatch/Stop operations the
registry keeps at most one watcher per session identity; Watch for an
already-registered session is a no-op returning success that keeps the
existing watcher; and Unwatch followed by Watch registers a watcher
fresh with respect to every watcher previously in the registry. -/
theorem C7_coordinator_single_watch (m : MonitorManager) (env : WatchEnv)
    (sid : GoStr) (w : Nat) (ops : List MonitorOp)
    (hn : OneWatcherPerSession m) (hb : IdsBounded m) :
    (OneWatcherPerSession (applyMonitorOps m ops) ∧ IdsBounded (applyMonitorOps m ops)) ∧
    (lookupWatcher m.watchers sid = some w → ManagerWatch m env sid = (.ok, m)) ∧
    ((ManagerWatch (ManagerUnwatch m sid) ⟨true, true⟩ sid).1 = .ok ∧
      lookupWatcher (ManagerWatch (ManagerUnwatch m sid) ⟨true, true⟩ sid).2.watchers sid =
        some m.nextId ∧
      ∀ p ∈ m.watchers, m.nextId ≠ p.2) := by
  refine ⟨monitorOps_invariants ops m hn hb, ?_, ?_, ?_, ?_⟩
  · intro hl
    simp [ManagerWatch, hl]
  · simp [ManagerWatch, lookupWatcher_filter_ne, ManagerUnwatch]
  · simp [ManagerWatch, lookupWatcher_filter_ne, ManagerUnwatch, lookupWatcher]
  · intro p hp
    exact Nat.ne_of_gt (hb p hp)

/-- Witness for C7 at concrete inputs. -/
theorem C7_coordinator_single_watch_witness :
    ManagerWatch ⟨[("sA".toList, 0)], 1⟩ ⟨false, false⟩ "sA".toList =
      (.ok, ⟨[("sA".toList, 0)], 1⟩) ∧
    lookupWatcher
      (ManagerWatch (ManagerUnwatch ⟨[("sA".toList, 0)], 1⟩ "sA".toList) ⟨true, true⟩
        "sA".toList).2.watchers "sA".toList = some 1 := by
  have h := C7_coordinator_single_watch ⟨[("sA".toList, 0)], 1⟩ ⟨false, false⟩
    "sA".toList 0 [] (by unfold OneWatcherPerSession; decide)
    (by unfold IdsBounded; decide)
  exact ⟨h.2.1 rfl, h.2.2.2.1⟩

/-- C10: when Watch fails (watcher construction or start failure) the
registry is unchanged, the session is not among the watched sessions,
and a subsequent Watch for the same session creates and registers a
watcher rather than being a no-op. -/
theorem C10_watch_failure_unregistered (m : MonitorManager) (env : WatchEnv) (sid : GoStr)
    (h : (ManagerWatch m env sid).1 ≠ .ok) :
    (ManagerWatch m env sid).2 = m ∧
    sid ∉ WatchedSessions m ∧
    sid ∉ WatchedSessions (ManagerWatch m env sid).2 ∧
    (ManagerWatch (ManagerWatch m env sid).2 ⟨true, true⟩ sid).1 = .ok ∧
    lookupWatcher
      (ManagerWatch (ManagerWatch m env sid).2 ⟨true, true⟩ sid).2.watchers sid =
      some m.nextId := by
  have hl : lookupWatcher m.watchers sid = none := by
    cases hl : lookupWatcher m.watchers sid with
    | none => rfl
    | some w => exact absurd (by simp [ManagerWatch, hl]) h
  have hm : (ManagerWatch m env sid).2 = m := by
    by_cases h1 : env.newWatcherOk
    · by_cases h2 : env.startOk
      · exact absurd (by simp [ManagerWatch, hl, h1, h2]) h
      · simp [ManagerWatch, hl, h1, h2]
    · simp [ManagerWatch, hl, h1]
  have hnm := lookupWatcher_none_notMem m.watchers sid hl
  refine ⟨hm, hnm, by rw [hm]; exact hnm, ?_, ?_⟩
  · rw [hm]; simp [ManagerWatch, hl]
  · rw [hm]; simp [ManagerWatch, hl, lookupWatcher]

/-- Witness for C10 at concrete inputs (a construction failure). -/
theorem C10_watch_failure_unregistered_witness :
    (ManagerWatch (⟨[], 0⟩ : MonitorManager) ⟨false, true⟩ "sA".toList).2 =
      (⟨[], 0⟩ : MonitorManager) ∧
    "sA".toList ∉ WatchedSessions (⟨[], 0⟩ : MonitorManager) := by
  have h := C10_watch_failure_unregistered ⟨[], 0⟩ ⟨false, true⟩ "sA".toList (by decide)
  exact ⟨h.1, h.2.1⟩

/-- C8: the debounce/validate path is triggered exactly when the event
kind is write or create and the event's base file name equals "game.x"
followed by the 1-indexed seat number; any other file name or event kind
never triggers validation. -/
theorem C8_watcher_scoping (playerOrder : Nat) (e : FsEvent) :
    handleEventTriggers playerOrder e = true ↔
      ((e.write = true ∨ e.create = true) ∧
        filepathBase e.name = "game.x".toList ++ (toString (playerOrder + 1)).toList) := by
  unfold handleEventTriggers expectedOrderFile
  by_cases h1 : e.write || e.create
  · by_cases h2 : filepathBase e.name = "game.x".toList ++ (toString (playerOrder + 1)).toList
    · simp only [h1, h2]
      simp [Bool.or_eq_true] at h1
      simp [h1, h2]
    · simp [h1, h2]
      intro _
      simpa using h1
  · simp only [h1]
    simp [Bool.or_eq_true] at h1
    simp [h1]

/-- Witness for C8 at concrete inputs (a matching write event for seat
0 and a non-matching file name). -/
theorem C8_watcher_scoping_witness :
    handleEventTriggers 0 ⟨"/dir/game.x1".toList, true, false, false, false, false⟩ = true ∧
    ¬ handleEventTriggers 0 ⟨"/dir/game.x2".toList, true, false, false, false, false⟩ = true := by
  refine ⟨?_, ?_⟩
  · exact (C8_watcher_scoping 0 ⟨"/dir/game.x1".toList, true, false, false, false, false⟩).mpr
      ⟨Or.inl rfl, by decide⟩
  · intro c
    have h := (C8_watcher_scoping 0
      ⟨"/dir/game.x2".toList, true, false, false, false, false⟩).mp c
    exact absurd h.2 (by decide)

/-- With uninterrupted consecutive failures, the reconnect loop waits
exactly the delays of `delaySeq`, starting anywhere in the schedule. -/
theorem reconnectRun_allFail_delays : ∀ n k : Nat,
    reconnectRun n (delaySeq k) allFailEnv =
      ((List.range n).map (fun i => delaySeq (k + i)), none) := by
  intro n
  induction n with
  | zero => intro k; rfl
  | succ n ih =>
    intro k
    have hstep : reconnectStep (delaySeq k) (allFailEnv 0) =
        ⟨none, some (delaySeq k), true, delaySeq (k + 1)⟩ := by
      simp [reconnectStep, allFailEnv, delaySeq]
    simp only [reconnectRun, hstep]
    rw [show (fun i => allFailEnv (i + 1)) = allFailEnv from rfl, ih (k + 1)]
    simp only [List.range_succ_eq_map, List.map_cons, List.map_map]
    refine congrArg (fun l => (_ :: l, none)) ?_
    · refine List.map_congr_left fun i _ => ?_
      simp only [Function.comp_apply]
      rw [show k + 1 + i = k + (i + 1) by omega]

/-- Every backoff delay respects the ceiling. -/
theorem delaySeq_le_max : ∀ n : Nat, delaySeq n ≤ maxBackoff := by
  intro n
  cases n with
  | zero =>
    unfold delaySeq initialBackoff maxBackoff nsecPerSec
    omega
  | succ n =>
    show (if delaySeq n * backoffFactor > maxBackoff then maxBackoff
      else delaySeq n * backoffFactor) ≤ maxBackoff
    split
    · exact Nat.le_refl _
    · omega

/-- C9: the reconnect loop's waiting delays start at 5 seconds and
double after each failed attempt, capped at the 60-second ceiling which
no delay ever exceeds; and one loop iteration terminates without a
further attempt as soon as the stop signal is observed (at the top of
the loop or during the backoff wait), the channel is already connected,
or no token is available. -/
theorem C9_reconnect_backoff :
    (∀ n : Nat, (reconnectRun n initialBackoff allFailEnv).1 =
      (List.range n).map delaySeq) ∧
    delaySeq 0 = 5 * nsecPerSec ∧
    (∀ n : Nat, delaySeq (n + 1) =
      if delaySeq n * backoffFactor > maxBackoff then maxBackoff
      else delaySeq n * backoffFactor) ∧
    (∀ n : Nat, delaySeq n ≤ maxBackoff) ∧
    (∀ (b : Nat) (inp : ReconnectIterIn), inp.stopTop = true →
      reconnectStep b inp = ⟨some .stopped, none, false, b⟩) ∧
    (∀ (b : Nat) (inp : ReconnectIterIn), inp.stopTop = false → inp.connected = true →
      reconnectStep b inp = ⟨some .alreadyConnected, none, false, b⟩) ∧
    (∀ (b : Nat) (inp : ReconnectIterIn), inp.stopTop = false → inp.connected = false →
      inp.noToken = true →
      reconnectStep b inp = ⟨some .noToken, none, false, b⟩) ∧
    (∀ (b : Nat) (inp : ReconnectIterIn), inp.stopTop = false → inp.connected = false →
      inp.noToken = false → inp.stopWait = true →
      reconnectStep b inp = ⟨some .stopped, none, false, b⟩) := by
  refine ⟨?_, rfl, fun n => rfl, delaySeq_le_max, ?_, ?_, ?_, ?_⟩
  · intro n
    rw [show initialBackoff = delaySeq 0 from rfl, reconnectRun_allFail_delays n 0]
    simp
  · intro b inp h
    simp [reconnectStep, h]
  · intro b inp h1 h2
    simp [reconnectStep, h1, h2]
  · intro b inp h1 h2 h3
    simp [reconnectStep, h1, h2, h3]
  · intro b inp h1 h2 h3 h4
    simp [reconnectStep, h1, h2, h3, h4]

/-- Witness for C9 at concrete inputs: the first six delays of an
all-failing run, and a stop observed mid-backoff aborting the iteration
without an attempt. -/
theorem C9_reconnect_backoff_witness :
    (reconnectRun 6 initialBackoff allFailEnv).1 =
      [5 * nsecPerSec, 10 * nsecPerSec, 20 * nsecPerSec, 40 * nsecPerSec,
        60 * nsecPerSec, 60 * nsecPerSec] ∧
    reconnectStep (10 * nsecPerSec) ⟨false, false, false, true, false⟩ =
      ⟨some .stopped, none, false, 10 * nsecPerSec⟩ := by
  refine ⟨?_, ?_⟩
  · rw [C9_reconnect_backoff.1 6]
    decide
  · exact C9_reconnect_backoff.2.2.2.2.2.2.2 (10 * nsecPerSec)
      ⟨false, false, false, true, false⟩ rfl rfl rfl rfl
